import Mathlib

set_option linter.unusedVariables false

/-!
Shallow embedding of the ProcureSight frontend (Next.js client) and of the
spec-documented ingestion/validation core.

Frontend sources embedded here:
* the uploads page handler `handleUpload` (ingest → dispatch → extract flow);
* the alerts page `isResolved` classifier;
* the list-response normalization (`asArray` / `asObject` / items) shared by
  the invoices and alerts pages;
* the typed client helpers `apiGet` and `getVendors`;
* the auth middleware (`authorized` callback and route matcher).

JavaScript runtime values are modelled by `JSValue`; numbers are modelled as
integers (the embedded code never does fractional arithmetic on them) and
field access, truthiness and array casts follow the JavaScript semantics the
code relies on.
-/

/-- Model of a JavaScript runtime value as manipulated by the client code. -/
inductive JSValue where
  | vUndefined : JSValue
  | vNull : JSValue
  | vBool : Bool → JSValue
  | vNum : Int → JSValue
  | vStr : String → JSValue
  | vArr : List JSValue → JSValue
  | vObj : List (String × JSValue) → JSValue

/-- JavaScript truthiness: `undefined`, `null`, `false`, `0` and `""` are
falsy; every array and object is truthy. -/
def truthy : JSValue → Bool
  | JSValue.vUndefined => false
  | JSValue.vNull => false
  | JSValue.vBool b => b
  | JSValue.vNum n => decide (n ≠ 0)
  | JSValue.vStr s => decide (s ≠ "")
  | JSValue.vArr _ => true
  | JSValue.vObj _ => true

/-- Escaping of one character as done by JSON.stringify (quote and backslash;
control characters do not occur in the values considered here). -/
def escapeChar (c : Char) : String :=
  if c = '"' then "\\\"" else if c = '\\' then "\\\\" else String.singleton c

/-- JSON string-body escaping. -/
def escapeJson (s : String) : String :=
  String.join (s.toList.map escapeChar)

mutual

/-- Model of `JSON.stringify` as interpolated into a template literal (so a
top-level `undefined` renders as the text `undefined`). -/
def stringifyJson : JSValue → String
  | JSValue.vUndefined => "undefined"
  | JSValue.vNull => "null"
  | JSValue.vBool true => "true"
  | JSValue.vBool false => "false"
  | JSValue.vNum n => toString n
  | JSValue.vStr s => "\"" ++ escapeJson s ++ "\""
  | JSValue.vArr xs => "[" ++ stringifyArr xs ++ "]"
  | JSValue.vObj fs => "\x7b" ++ stringifyFields fs ++ "\x7d"

/-- Comma-joined stringification of array elements. -/
def stringifyArr : List JSValue → String
  | [] => ""
  | [x] => stringifyJson x
  | x :: xs => stringifyJson x ++ "," ++ stringifyArr xs

/-- Comma-joined stringification of object fields. -/
def stringifyFields : List (String × JSValue) → String
  | [] => ""
  | [(k, v)] => "\"" ++ escapeJson k ++ "\":" ++ stringifyJson v
  | (k, v) :: fs =>
      "\"" ++ escapeJson k ++ "\":" ++ stringifyJson v ++ "," ++ stringifyFields fs

end

/-- Embedding of `asArray` (invoices and alerts pages): an array is returned
as is, every other value becomes the empty array. -/
def asArray : JSValue → List JSValue
  | JSValue.vArr xs => xs
  | _ => []

/-- Embedding of `asObject`: `value && typeof value === "object"` keeps
arrays and objects (JavaScript arrays are objects) and maps everything else,
including `null`, to the empty record. -/
def asObject : JSValue → JSValue
  | JSValue.vArr xs => JSValue.vArr xs
  | JSValue.vObj fs => JSValue.vObj fs
  | _ => JSValue.vObj []

/-- Property access `obj.k`: lookup of the first matching field of an object;
`undefined` for a missing field and for non-record values (an array in this
model carries no named properties such as `items`). -/
def getField : JSValue → String → JSValue
  | JSValue.vObj fs, k =>
      match fs.find? (fun p => p.fst == k) with
      | some p => p.snd
      | none => JSValue.vUndefined
  | _, _ => JSValue.vUndefined

/-- Embedding of the items normalization shared by the invoices page and the
alerts page: `asArray(asObject(raw).items).length > 0 ?
asArray(asObject(raw).items) : asArray(raw)`. -/
def normalizeItems (raw : JSValue) : List JSValue :=
  let fromEnvelope := asArray (getField (asObject raw) "items")
  if fromEnvelope.length > 0 then fromEnvelope else asArray raw

/-- Whether a value is a JavaScript array (`Array.isArray`). -/
def isArrayValue : JSValue → Bool
  | JSValue.vArr _ => true
  | _ => false

/-- Whether a field is absent in the JavaScript sense (`undefined`). -/
def isUndefinedValue : JSValue → Bool
  | JSValue.vUndefined => true
  | _ => false

/-- A `{ data, error }` pair as resolved by the openapi-fetch client; an
absent field is `vUndefined`. -/
structure ApiResponse where
  error : JSValue
  data : JSValue

/-- Embedding of `apiGet`: `if (res.error) throw res.error; return res.data`.
A thrown value is `Except.error`. -/
def apiGet (res : ApiResponse) : Except JSValue JSValue :=
  if truthy res.error then Except.error res.error else Except.ok res.data

/-- Embedding of `getVendors`: `const { data, error } = await api.GET("/vendors");
if (error) throw error; return data;`. -/
def getVendors (res : ApiResponse) : Except JSValue JSValue :=
  if truthy res.error then Except.error res.error else Except.ok res.data

/-- Model of `String.prototype.toLowerCase` on the character sequence of a
string (the embedded comparisons are all ASCII). -/
def jsToLowerCase (s : String) : String :=
  String.mk (s.data.map Char.toLower)

/-- Model of `String.prototype.startsWith`: code-unit prefix test. -/
def jsStartsWith (s p : String) : Bool :=
  p.data.isPrefixOf s.data

/-- Dropping the first n characters of a string (used for the path part
after the leading slash). -/
def jsDrop (s : String) (n : Nat) : String :=
  String.mk (s.data.drop n)

/-- Split of a character sequence at every occurrence of a separator
character; like JavaScript `split`, the result is never empty and empty
segments are kept. -/
def splitOnChar (sep : Char) : List Char → List (List Char)
  | [] => [[]]
  | c :: cs =>
      match splitOnChar sep cs with
      | [] => [[c]]
      | g :: gs => if c = sep then [] :: g :: gs else (c :: g) :: gs

/-- Model of `name.split(".")`. -/
def jsSplitDot (s : String) : List String :=
  (splitOnChar '.' s.data).map String.mk

/-- Embedding of the alerts page classifier: `status.toLowerCase()` equal to
"resolved", "dismissed" or "acknowledged". -/
def isResolved (status : String) : Bool :=
  (jsToLowerCase status == "resolved") || (jsToLowerCase status == "dismissed") ||
    (jsToLowerCase status == "acknowledged")

/-- The upload page status union. -/
inductive UploadStatus where
  | idle
  | uploading
  | uploaded
  | extracting
  | complete
  | error
deriving DecidableEq, Repr

/-- The two extraction endpoints the uploads page can call. -/
inductive ExtractEndpoint where
  | unstructured
  | structured
deriving DecidableEq, Repr

/-- Embedding of `file.name.split(".").pop()`. -/
def lastDotComponent (name : String) : String :=
  (jsSplitDot name).getLastD ""

/-- Embedding of `const fileExt = file.name.split(".").pop()?.toLowerCase()`. -/
def fileExt (name : String) : String :=
  jsToLowerCase (lastDotComponent name)

/-- Embedding of `const isPdf = fileExt === "pdf"`. -/
def isPdf (name : String) : Bool :=
  fileExt name == "pdf"

/-- Embedding of `const extractEndpoint = isPdf ? "/extract/unstructured"
: "/extract/structured"`. -/
def extractEndpointFor (name : String) : ExtractEndpoint :=
  if isPdf name then ExtractEndpoint.unstructured else ExtractEndpoint.structured

/-- The selected file as the handler reads it (only its name decides
anything). -/
structure FileMeta where
  name : String

/-- Observable outcome of one run of `handleUpload`: final status, the
sequence of `setStatus` calls, the final error message, and which network
requests were issued. -/
structure UploadOutcome where
  status : UploadStatus
  statusHistory : List UploadStatus
  errorMessage : String
  ingestRequested : Bool
  extractRequested : Option ExtractEndpoint
deriving DecidableEq, Repr

/-- Embedding of the uploads page `handleUpload`: guard on a missing file,
POST /api/ingest, dispatch on the file extension, POST to exactly one of the
two extraction endpoints, with early returns on truthy `error` fields.
`prevStatus` is the `status` state before the click; display-only state
(`statusMessage`, `resultData`) is not tracked. -/
def handleUpload (prevStatus : UploadStatus) (file : Option FileMeta)
    (ingestRes extractRes : ApiResponse) : UploadOutcome :=
  match file with
  | none =>
      { status := prevStatus, statusHistory := [],
        errorMessage := "Please select a file first",
        ingestRequested := false, extractRequested := none }
  | some f =>
      if truthy ingestRes.error then
        { status := UploadStatus.error,
          statusHistory := [UploadStatus.uploading, UploadStatus.error],
          errorMessage := "Upload failed: " ++ stringifyJson ingestRes.error,
          ingestRequested := true, extractRequested := none }
      else
        if truthy extractRes.error then
          { status := UploadStatus.error,
            statusHistory := [UploadStatus.uploading, UploadStatus.uploaded,
              UploadStatus.extracting, UploadStatus.error],
            errorMessage := "Extraction failed: " ++ stringifyJson extractRes.error,
            ingestRequested := true,
            extractRequested := some (extractEndpointFor f.name) }
        else
          { status := UploadStatus.complete,
            statusHistory := [UploadStatus.uploading, UploadStatus.uploaded,
              UploadStatus.extracting, UploadStatus.complete],
            errorMessage := "",
            ingestRequested := true,
            extractRequested := some (extractEndpointFor f.name) }

/-- The five path stems excluded by the middleware matcher
`"/((?!api/auth|login|_next/static|_next/image|favicon.ico).*)"`. -/
def excludedPathStems : List String :=
  ["api/auth", "login", "_next/static", "_next/image", "favicon.ico"]

/-- Whether the matcher covers a request path: it starts with "/" and the
part after the slash starts with none of the excluded stems. -/
def matcherCovers (path : String) : Bool :=
  jsStartsWith path "/" &&
    !(excludedPathStems.any (fun e => jsStartsWith (jsDrop path 1) e))

/-- Embedding of the `authorized` callback `({ token }) => !!token`; the
session token is `none` when no token is present. -/
def authorizedCallback (token : Option String) : Bool :=
  token.isSome

/-- Whether a request is served the page: paths outside the matcher pass
through; covered paths are served exactly when `authorized` returns true. -/
def middlewareServes (path : String) (token : Option String) : Bool :=
  if matcherCovers path then authorizedCallback token else true

/-- Modelled from the spec: the backend ingestion service (POST /api/ingest)
is not part of the client sources; its content fingerprint is a 256-bit
collision-resistant hash of the bytes, modelled here by the injective
identity on byte sequences. -/
def fingerprint (bytes : List Nat) : List Nat :=
  bytes

/-- A RawDocument metadata row: id, org, content fingerprint. -/
structure RawDocument where
  id : Nat
  org : String
  fp : List Nat

/-- A stored blob object: owning org, storage key, stored bytes. -/
structure StoredObject where
  org : String
  key : Nat
  bytes : List Nat

/-- Observable store state of the ingestion gate: the next fresh id, the
RawDocument rows, and the blob storage contents. -/
structure IngestState where
  nextId : Nat
  rows : List RawDocument
  objects : List StoredObject

/-- The ingest reply `{documentId, storageLocator…, duplicate}` (the locator
is keyed by the document id in this model). -/
structure IngestReply where
  documentId : Nat
  duplicate : Bool

/-- Row match on (org, fingerprint). -/
def matchesDoc (org : String) (fp : List Nat) (r : RawDocument) : Bool :=
  r.org == org && r.fp == fp

/-- Modelled from the spec: the ingestion gate (backend code absent from the
client sources). Compute the fingerprint; if a RawDocument with the same
(org, fingerprint) exists, return it with `duplicate = true` and perform no
storage write and no row insert; otherwise store the bytes and insert one
new row. -/
def ingest (st : IngestState) (org : String) (bytes : List Nat) :
    IngestReply × IngestState :=
  match st.rows.find? (matchesDoc org (fingerprint bytes)) with
  | some r => ({ documentId := r.id, duplicate := true }, st)
  | none =>
      ({ documentId := st.nextId, duplicate := false },
       { nextId := st.nextId + 1,
         rows := st.rows ++ [{ id := st.nextId, org := org, fp := fingerprint bytes }],
         objects := st.objects ++ [{ org := org, key := st.nextId, bytes := bytes }] })

/-- Number of RawDocument rows for a given (org, fingerprint). -/
def countRows (st : IngestState) (org : String) (fp : List Nat) : Nat :=
  (st.rows.filter (matchesDoc org fp)).length

/-- Number of stored objects holding the given bytes for the given org. -/
def countObjects (st : IngestState) (org : String) (bytes : List Nat) : Nat :=
  (st.objects.filter (fun o => o.org == org && o.bytes == bytes)).length

/-- One canonical invoice line (quantity, unit price, line total), with exact
rational amounts. -/
structure InvoiceLine where
  qty : ℚ
  unitPrice : ℚ
  lineTotal : ℚ

/-- A candidate canonical invoice as the validator sees it. -/
structure CandidateInvoice where
  subtotal : ℚ
  tax : ℚ
  total : ℚ
  lines : List InvoiceLine

/-- Modelled from the spec: the default arithmetic tolerance 0.02 in the
invoice's currency unit. -/
def defaultTolerance : ℚ :=
  2 / 100

/-- An arithmetic violation found by the validator. -/
inductive Violation where
  | lineMath : Nat → Violation
  | subtotalMismatch : Violation
  | totalMismatch : Violation
deriving DecidableEq, Repr

/-- Modelled from the spec: per-line arithmetic consistency,
`|lineTotal − quantity×unitPrice| ≤ tolerance`. -/
def lineOk (tol : ℚ) (l : InvoiceLine) : Bool :=
  decide (|l.lineTotal - l.qty * l.unitPrice| ≤ tol)

/-- Sum of the declared line totals. -/
def sumLineTotals (inv : CandidateInvoice) : ℚ :=
  (inv.lines.map (fun l => l.lineTotal)).sum

/-- Modelled from the spec: the validator's arithmetic rules in evaluation
order — each line within tolerance, sum of line totals vs. declared
subtotal, subtotal + tax vs. declared total; all findings are reported, none
is fatal. The validator implementation itself is backend code absent from
the client sources. -/
def arithViolations (tol : ℚ) (inv : CandidateInvoice) : List Violation :=
  ((inv.lines.enum.filter (fun p => !(lineOk tol p.snd))).map
      (fun p => Violation.lineMath p.fst)) ++
    (if decide (|sumLineTotals inv - inv.subtotal| ≤ tol) then []
     else [Violation.subtotalMismatch]) ++
    (if decide (|inv.subtotal + inv.tax - inv.total| ≤ tol) then []
     else [Violation.totalMismatch])

/-- The spec's arithmetic example invoice: subtotal 1200.00, tax 96.00,
total 1296.00, with lines (including the 10 × 5.99 = 59.90 example line)
summing to the subtotal. -/
def exampleInvoiceOk : CandidateInvoice :=
  { subtotal := 1200, tax := 96, total := 1296,
    lines := [{ qty := 10, unitPrice := 599 / 100, lineTotal := 599 / 10 },
              { qty := 1, unitPrice := 11401 / 10, lineTotal := 11401 / 10 }] }

/-- The same invoice with a declared total of 1300.00. -/
def exampleInvoiceBad : CandidateInvoice :=
  { subtotal := 1200, tax := 96, total := 1300,
    lines := [{ qty := 10, unitPrice := 599 / 100, lineTotal := 599 / 10 },
              { qty := 1, unitPrice := 11401 / 10, lineTotal := 11401 / 10 }] }

/-!
Theorems settling the claims, together with shared helper lemmas.
-/

/-- A non-array value casts to the empty array. -/
theorem asArray_eq_nil_of_not_array (v : JSValue) (h : isArrayValue v = false) :
    asArray v = [] := by
  cases v <;> simp_all [isArrayValue, asArray]

/-- C1: for every upload whose ingest call succeeded, extraction is
dispatched as a two-variant union on the file name's final dot-separated
component compared case-insensitively: "pdf" goes to the unstructured
endpoint, everything else to the structured endpoint, and exactly one
extraction request is issued. -/
theorem c1_extraction_dispatch (prev : UploadStatus) (f : FileMeta)
    (ing ex : ApiResponse) (hok : truthy ing.error = false) :
    ((handleUpload prev (some f) ing ex).extractRequested =
        some ExtractEndpoint.unstructured ↔
      jsToLowerCase (lastDotComponent f.name) = "pdf") ∧
    ((handleUpload prev (some f) ing ex).extractRequested =
        some ExtractEndpoint.structured ↔
      jsToLowerCase (lastDotComponent f.name) ≠ "pdf") ∧
    (∃ e, (handleUpload prev (some f) ing ex).extractRequested = some e) := by
  by_cases h2 : truthy ex.error <;>
    by_cases h3 : jsToLowerCase (lastDotComponent f.name) = "pdf" <;>
      simp [handleUpload, hok, h2, h3, extractEndpointFor, isPdf, fileExt]

/-- Witness for C1 at a concrete upper-case PDF filename. -/
theorem c1_witness :
    truthy JSValue.vUndefined = false ∧
    (handleUpload UploadStatus.idle (some { name := "Invoice.PDF" })
        { error := JSValue.vUndefined, data := JSValue.vNull }
        { error := JSValue.vUndefined, data := JSValue.vNull }).extractRequested =
      some ExtractEndpoint.unstructured :=
  ⟨rfl,
   (c1_extraction_dispatch UploadStatus.idle { name := "Invoice.PDF" }
       { error := JSValue.vUndefined, data := JSValue.vNull }
       { error := JSValue.vUndefined, data := JSValue.vNull } rfl).1.mpr (by decide)⟩

/-- C2: a truthy ingest error terminates the flow in the error state with
the ingest error reported and no extraction request; extraction is only ever
requested when the ingest call returned without error. -/
theorem c2_ingest_error_terminates (prev : UploadStatus) (f : FileMeta)
    (ing ex : ApiResponse) (herr : truthy ing.error = true) :
    (handleUpload prev (some f) ing ex).status = UploadStatus.error ∧
    (handleUpload prev (some f) ing ex).errorMessage =
      "Upload failed: " ++ stringifyJson ing.error ∧
    (handleUpload prev (some f) ing ex).extractRequested = none ∧
    (∀ (prev2 : UploadStatus) (f2 : FileMeta) (ing2 ex2 : ApiResponse),
      ((handleUpload prev2 (some f2) ing2 ex2).extractRequested).isSome = true →
        truthy ing2.error = false) := by
  refine ⟨by simp [handleUpload, herr], by simp [handleUpload, herr],
    by simp [handleUpload, herr], ?_⟩
  intro prev2 f2 ing2 ex2 h
  cases hb : truthy ing2.error
  · rfl
  · simp [handleUpload, hb] at h

/-- Witness for C2 at a concrete failing ingest response. -/
theorem c2_witness :
    truthy (JSValue.vStr "boom") = true ∧
    (handleUpload UploadStatus.idle (some { name := "data.csv" })
        { error := JSValue.vStr "boom", data := JSValue.vNull }
        { error := JSValue.vUndefined, data := JSValue.vNull }).status =
      UploadStatus.error ∧
    (handleUpload UploadStatus.idle (some { name := "data.csv" })
        { error := JSValue.vStr "boom", data := JSValue.vNull }
        { error := JSValue.vUndefined, data := JSValue.vNull }).errorMessage =
      "Upload failed: " ++ stringifyJson (JSValue.vStr "boom") ∧
    (handleUpload UploadStatus.idle (some { name := "data.csv" })
        { error := JSValue.vStr "boom", data := JSValue.vNull }
        { error := JSValue.vUndefined, data := JSValue.vNull }).extractRequested =
      none :=
  have h := c2_ingest_error_terminates UploadStatus.idle { name := "data.csv" }
    { error := JSValue.vStr "boom", data := JSValue.vNull }
    { error := JSValue.vUndefined, data := JSValue.vNull } (by decide)
  ⟨by decide, h.1, h.2.1, h.2.2.1⟩

/-- When a matching row exists, ingest returns it as a duplicate and leaves
the state untouched. -/
theorem ingest_of_found (s : IngestState) (org : String) (bytes : List Nat)
    (r : RawDocument)
    (hr : s.rows.find? (matchesDoc org (fingerprint bytes)) = some r) :
    ingest s org bytes = ({ documentId := r.id, duplicate := true }, s) := by
  simp [ingest, hr]

/-- When no matching row exists, ingest stores the object and inserts one
row. -/
theorem ingest_of_fresh (s : IngestState) (org : String) (bytes : List Nat)
    (hr : s.rows.find? (matchesDoc org (fingerprint bytes)) = none) :
    ingest s org bytes =
      ({ documentId := s.nextId, duplicate := false },
       { nextId := s.nextId + 1,
         rows := s.rows ++ [{ id := s.nextId, org := org, fp := fingerprint bytes }],
         objects := s.objects ++ [{ org := org, key := s.nextId, bytes := bytes }] }) := by
  simp [ingest, hr]

/-- C3: ingesting the identical bytes twice for the same org leaves the
store state of the first call unchanged, returns the original document id
with `duplicate = true`, and — starting from a state with no row or object
for that content — ends with exactly one matching RawDocument row and one
matching stored object. -/
theorem c3_idempotent_ingestion (st : IngestState) (org : String)
    (bytes : List Nat) :
    (ingest (ingest st org bytes).2 org bytes).2 = (ingest st org bytes).2 ∧
    (ingest (ingest st org bytes).2 org bytes).1.duplicate = true ∧
    (ingest (ingest st org bytes).2 org bytes).1.documentId =
      (ingest st org bytes).1.documentId ∧
    (countRows st org (fingerprint bytes) = 0 →
      countObjects st org bytes = 0 →
      countRows (ingest (ingest st org bytes).2 org bytes).2 org (fingerprint bytes) = 1 ∧
      countObjects (ingest (ingest st org bytes).2 org bytes).2 org bytes = 1) := by
  cases h : st.rows.find? (matchesDoc org (fingerprint bytes)) with
  | some r =>
      have h1 := ingest_of_found st org bytes r h
      rw [h1]
      have h2 := ingest_of_found st org bytes r h
      rw [h2]
      refine ⟨rfl, rfl, rfl, ?_⟩
      intro hrow _
      exfalso
      have hmem := List.mem_of_find?_eq_some h
      have hp := List.find?_some h
      have hin : r ∈ st.rows.filter (matchesDoc org (fingerprint bytes)) :=
        List.mem_filter.mpr ⟨hmem, hp⟩
      have hpos : 0 < countRows st org (fingerprint bytes) := by
        have := List.length_pos.mpr (List.ne_nil_of_mem hin)
        simpa [countRows] using this
      omega
  | none =>
      have h1 := ingest_of_fresh st org bytes h
      have h2 : (ingest st org bytes).2.rows.find? (matchesDoc org (fingerprint bytes)) =
          some { id := st.nextId, org := org, fp := fingerprint bytes } := by
        rw [h1]
        simp [List.find?_append, h, matchesDoc]
      have h3 := ingest_of_found (ingest st org bytes).2 org bytes _ h2
      rw [h3, h1]
      refine ⟨rfl, rfl, rfl, ?_⟩
      intro hrow hobj
      constructor
      · simp only [countRows] at hrow ⊢
        simp [List.filter_append, List.length_eq_zero.mp hrow, matchesDoc]
      · simp only [countObjects] at hobj ⊢
        simp [List.filter_append, List.length_eq_zero.mp hobj]

/-- Witness for C3 from the empty store. -/
theorem c3_witness :
    countRows { nextId := 0, rows := [], objects := [] } "acme" (fingerprint [1, 2]) = 0 ∧
    countObjects { nextId := 0, rows := [], objects := [] } "acme" [1, 2] = 0 ∧
    (ingest (ingest { nextId := 0, rows := [], objects := [] } "acme" [1, 2]).2
        "acme" [1, 2]).1.duplicate = true ∧
    countRows (ingest (ingest { nextId := 0, rows := [], objects := [] } "acme" [1, 2]).2
        "acme" [1, 2]).2 "acme" (fingerprint [1, 2]) = 1 ∧
    countObjects (ingest (ingest { nextId := 0, rows := [], objects := [] } "acme" [1, 2]).2
        "acme" [1, 2]).2 "acme" [1, 2] = 1 :=
  have h := c3_idempotent_ingestion { nextId := 0, rows := [], objects := [] } "acme" [1, 2]
  ⟨rfl, rfl, h.2.1, (h.2.2.2 rfl rfl).1, (h.2.2.2 rfl rfl).2⟩

/-- C4: the validator's arithmetic rules at tolerance 0.02 — the 10 × 5.99 =
59.90 line validates; the subtotal 1200.00 / tax 96.00 / total 1296.00
invoice has zero arithmetic violations; the total 1300.00 variant has an
arithmetic violation since |subtotal + tax − total| = 4.00 exceeds the
tolerance; and in general a line validates exactly when
|lineTotal − quantity×unitPrice| ≤ tolerance. -/
theorem c4_validator_arithmetic :
    lineOk defaultTolerance { qty := 10, unitPrice := 599 / 100, lineTotal := 599 / 10 } = true ∧
    arithViolations defaultTolerance exampleInvoiceOk = [] ∧
    Violation.totalMismatch ∈ arithViolations defaultTolerance exampleInvoiceBad ∧
    |exampleInvoiceBad.subtotal + exampleInvoiceBad.tax - exampleInvoiceBad.total| = 4 ∧
    defaultTolerance < 4 ∧
    (∀ (tol : ℚ) (l : InvoiceLine),
      lineOk tol l = true ↔ |l.lineTotal - l.qty * l.unitPrice| ≤ tol) := by
  refine ⟨?_, ?_, ?_, ?_, ?_, ?_⟩
  · simp only [lineOk, decide_eq_true_eq]
    norm_num [defaultTolerance]
  · simp [arithViolations, exampleInvoiceOk, lineOk, sumLineTotals, defaultTolerance,
      List.enum]
    norm_num
  · simp [arithViolations, exampleInvoiceBad, lineOk, sumLineTotals, defaultTolerance,
      List.enum]
    norm_num
  · simp only [exampleInvoiceBad]
    norm_num
  · norm_num [defaultTolerance]
  · intro tol l
    simp [lineOk]

/-- C5 counterexample: the alerts page also classifies the status string
"resolved" as terminal, although it is neither "acknowledged" nor
"dismissed" (nor "open"), so the classifier is not *exactly* the
acknowledged-or-dismissed predicate. -/
theorem c5_counterexample :
    isResolved "resolved" = true ∧
    (jsToLowerCase "resolved" == "acknowledged") = false ∧
    (jsToLowerCase "resolved" == "dismissed") = false ∧
    (jsToLowerCase "resolved" == "open") = false := by
  decide

/-- C5 (amended): the alerts page classifies an alert as resolved exactly
when its status string, compared case-insensitively, is "resolved",
"dismissed" or "acknowledged", and never when it is "open". -/
theorem c5_resolved_classifier (s : String) :
    (isResolved s = true ↔
      (jsToLowerCase s = "resolved" ∨ jsToLowerCase s = "dismissed" ∨
        jsToLowerCase s = "acknowledged")) ∧
    (jsToLowerCase s = "open" → isResolved s = false) := by
  constructor
  · simp [isResolved, Bool.or_eq_true, beq_iff_eq, or_assoc]
  · intro h
    simp [isResolved, h]

/-- Witness for C5 at concrete status strings. -/
theorem c5_witness :
    isResolved "Dismissed" = true ∧ isResolved "open" = false :=
  ⟨(c5_resolved_classifier "Dismissed").1.mpr (by decide),
   (c5_resolved_classifier "open").2 (by decide)⟩

/-- C6: an ingest response without an error field — whatever its data, in
particular whatever its duplicate flag — lets the flow advance through
"uploaded" into the extraction stage, issuing the extraction request for the
file; it is never routed to the ingest error branch. -/
theorem c6_duplicate_is_flag (prev : UploadStatus) (f : FileMeta)
    (ingData : JSValue) (ex : ApiResponse) :
    (handleUpload prev (some f) { error := JSValue.vUndefined, data := ingData }
        ex).statusHistory.take 3 =
      [UploadStatus.uploading, UploadStatus.uploaded, UploadStatus.extracting] ∧
    (handleUpload prev (some f) { error := JSValue.vUndefined, data := ingData }
        ex).extractRequested = some (extractEndpointFor f.name) := by
  by_cases h : truthy ex.error <;>
    simp [handleUpload, h, show truthy JSValue.vUndefined = false from rfl]

/-- C7 counterexample: on a response whose error field is present but falsy
(here the number 0), `apiGet` returns the data instead of throwing the
structured error value, so "returns data iff the error field is absent"
fails. -/
theorem c7_counterexample :
    apiGet { error := JSValue.vNum 0, data := JSValue.vStr "d" } =
      Except.ok (JSValue.vStr "d") ∧
    getVendors { error := JSValue.vNum 0, data := JSValue.vStr "d" } =
      Except.ok (JSValue.vStr "d") ∧
    isUndefinedValue (JSValue.vNum 0) = false :=
  ⟨rfl, rfl, rfl⟩

/-- C7 (amended): `apiGet` and `getVendors` return the response's data field
exactly when the error field is absent or falsy, and otherwise throw exactly
the structured error value received, never a synthesized one. -/
theorem c7_typed_error_propagation (res : ApiResponse) :
    (truthy res.error = false →
      apiGet res = Except.ok res.data ∧ getVendors res = Except.ok res.data) ∧
    (truthy res.error = true →
      apiGet res = Except.error res.error ∧ getVendors res = Except.error res.error) := by
  constructor <;> intro h <;> simp [apiGet, getVendors, h]

/-- Witness for C7 at a concrete structured error body. -/
theorem c7_witness :
    truthy (JSValue.vObj [("detail", JSValue.vStr "missing")]) = true ∧
    apiGet { error := JSValue.vObj [("detail", JSValue.vStr "missing")], data := JSValue.vUndefined } =
      Except.error (JSValue.vObj [("detail", JSValue.vStr "missing")]) :=
  ⟨rfl,
   ((c7_typed_error_propagation { error := JSValue.vObj [("detail", JSValue.vStr "missing")], data := JSValue.vUndefined }).2 rfl).1⟩

/-- C8: list-response normalization is total and shape-insensitive — a
non-empty bare array and a non-empty `items` envelope normalize to the same
list, and null, non-objects, objects without an array items field and empty
collections all normalize to the empty list. -/
theorem c8_items_normalization :
    (∀ xs : List JSValue, xs ≠ [] → normalizeItems (JSValue.vArr xs) = xs) ∧
    (∀ (fs : List (String × JSValue)) (xs : List JSValue), xs ≠ [] →
      getField (JSValue.vObj fs) "items" = JSValue.vArr xs →
      normalizeItems (JSValue.vObj fs) = xs) ∧
    normalizeItems JSValue.vNull = [] ∧
    normalizeItems JSValue.vUndefined = [] ∧
    (∀ b, normalizeItems (JSValue.vBool b) = []) ∧
    (∀ n, normalizeItems (JSValue.vNum n) = []) ∧
    (∀ s, normalizeItems (JSValue.vStr s) = []) ∧
    (∀ fs, isArrayValue (getField (JSValue.vObj fs) "items") = false →
      normalizeItems (JSValue.vObj fs) = []) ∧
    normalizeItems (JSValue.vArr []) = [] ∧
    (∀ fs, getField (JSValue.vObj fs) "items" = JSValue.vArr [] →
      normalizeItems (JSValue.vObj fs) = []) := by
  refine ⟨?_, ?_, rfl, rfl, fun b => rfl, fun n => rfl, fun s => rfl, ?_, rfl, ?_⟩
  · intro xs hxs
    simp [normalizeItems, asObject, getField, asArray]
  · intro fs xs hxs hget
    have hpos : 0 < xs.length := List.length_pos.mpr hxs
    simp [normalizeItems, asObject, hget, asArray, hpos]
  · intro fs hnotarr
    have hnil := asArray_eq_nil_of_not_array _ hnotarr
    simp only [normalizeItems, asObject, hnil]
    simp [asArray]
  · intro fs hget
    simp [normalizeItems, asObject, hget, asArray]

/-- Witness for C8 at a concrete one-element list in both shapes. -/
theorem c8_witness :
    normalizeItems (JSValue.vArr [JSValue.vNum 1]) = [JSValue.vNum 1] ∧
    normalizeItems (JSValue.vObj [("items", JSValue.vArr [JSValue.vNum 1])]) =
      [JSValue.vNum 1] :=
  ⟨c8_items_normalization.1 [JSValue.vNum 1] (by simp),
   c8_items_normalization.2.1 [("items", JSValue.vArr [JSValue.vNum 1])]
     [JSValue.vNum 1] (by simp) rfl⟩

/-- C9: every matched route is gated on authentication — on a path the
matcher covers, the authorized callback accepts exactly the requests that
carry a session token, a tokenless request is not served, and no covered
path lies under one of the five excluded stems. -/
theorem c9_auth_gate (path : String) (token : Option String)
    (hc : matcherCovers path = true) :
    (authorizedCallback token = true ↔ token.isSome = true) ∧
    middlewareServes path none = false ∧
    (∀ e ∈ excludedPathStems, jsStartsWith (jsDrop path 1) e = false) := by
  refine ⟨Iff.rfl, ?_, ?_⟩
  · simp [middlewareServes, hc, authorizedCallback]
  · have h2 : (excludedPathStems.any fun e => jsStartsWith (jsDrop path 1) e) = false := by
      have hand := (Bool.and_eq_true _ _).mp hc
      simpa [Bool.not_eq_true'] using hand.2
    intro e he
    rw [List.any_eq_false] at h2
    simpa using h2 e he

/-- Witness for C9 at a concrete covered path. -/
theorem c9_witness :
    matcherCovers "/dashboard" = true ∧
    middlewareServes "/dashboard" none = false ∧
    middlewareServes "/dashboard" (some "token-abc") = true :=
  ⟨by decide, (c9_auth_gate "/dashboard" none (by decide)).2.1, by decide⟩

/-- C10: running the handler with no selected file only sets the error
message "Please select a file first": the status is left unchanged, no
status transition happens, and neither the ingest nor an extraction request
is issued. -/
theorem c10_no_file_selected (prev : UploadStatus) (ing ex : ApiResponse) :
    handleUpload prev none ing ex =
      { status := prev, statusHistory := [],
        errorMessage := "Please select a file first",
        ingestRequested := false, extractRequested := none } :=
  rfl
